import Mathlib

/-!
Shallow embedding of the retry utility in `src/retry/api.py` and
`src/retry/compat.py`, and proofs of the specification's claims about it.

Modelling conventions:
* Python exceptions are `Exc` values: a `kind` (standing for the exception
  class, used by the `except config["exceptions"]` membership test) and a
  `payload` (standing for the instance's content, so that "propagated
  unchanged" is expressible).
* The wrapped callable is a pure oracle `f : Nat → CallOutcome α` giving the
  outcome of its n-th actual invocation (0-indexed).
* `random.uniform(lo, hi)` is modelled as `lo + (hi - lo) * rand n` for an
  arbitrary sequence `rand : Nat → ℚ` of draws of `random.random()`.
* `time.sleep` and `logger.warning` are recorded as events in a trace.
* `f_args`/`f_kwargs` being `None` (the defaults) is modelled by
  `hasArgs = false`: unpacking `None` in `f(*f_args, **f_kwargs)` raises
  `TypeError` inside the `try` block before `f` itself runs.
* `while _tries > 0` over the integer `_tries` runs at most
  `_tries.toNat` iterations, so the loop is modelled by structural
  recursion on that fuel; `tries ≤ 0` gives zero iterations and the
  Python function falls through and returns `None`.
-/

/-- A Python exception instance: its class (`kind`) and its content. -/
structure Exc where
  kind : Nat
  payload : Nat
  deriving DecidableEq, Repr

/-- The designated kind of Python's `TypeError`. -/
def typeErrorKind : Nat := 0

/-- The `TypeError` raised by unpacking `None` in `f(*f_args, **f_kwargs)`. -/
def typeErrorExc : Exc := ⟨typeErrorKind, 0⟩

/-- Outcome of one invocation of the wrapped callable. -/
inductive CallOutcome (α : Type) where
  | ok (v : α)
  | exn (e : Exc)
  deriving DecidableEq, Repr

/-- The `jitter` parameter: a number, or a `(lo, hi)` tuple. -/
inductive JitterSpec where
  | num (j : ℚ)
  | tup (lo hi : ℚ)
  deriving DecidableEq, Repr

/-- The `RetryConfig` dict consumed by `__retry_internal`.  `exceptions` is
the membership test performed by `except config["exceptions"]` (the
`isinstance` check against a class or tuple of classes); `logger` is the
truthiness of `config["logger"]`. -/
structure RetryConfig where
  exceptions : Nat → Bool
  tries : Int
  delay : ℚ
  max_delay : Option ℚ
  backoff : ℚ
  jitter : JitterSpec
  logger : Bool

/-- Observable side effects of one executor run, in order. -/
inductive Event where
  | warn (e : Exc) (delay : ℚ)
  | sleep (d : ℚ)
  deriving DecidableEq, Repr

/-- How a run of `__retry_internal` terminates: a returned value, a
propagated exception, or the implicit `None` returned when the
`while _tries > 0` loop is never entered. -/
inductive RunResult (α : Type) where
  | ok (v : α)
  | raised (e : Exc)
  | pyNone
  deriving DecidableEq, Repr

/-- Result of a run: how it ended, the trace of warn/sleep events, and how
many times the wrapped callable `f` was actually invoked. -/
structure LoopOut (α : Type) where
  result : RunResult α
  events : List Event
  invocations : Nat
  deriving DecidableEq, Repr

/-- `random.uniform(*config["jitter"]) if isinstance(config["jitter"], tuple)
else config["jitter"]`, for round `n`. -/
def jitterValue (j : JitterSpec) (rand : Nat → ℚ) (n : Nat) : ℚ :=
  match j with
  | .num x => x
  | .tup lo hi => lo + (hi - lo) * rand n

/-- The delay update at the end of a failed round:
`min(_delay * backoff + jitter_value, max_delay) if max_delay else
_delay * backoff + jitter_value`.  Python truthiness: `max_delay` of
`None` or `0` selects the unclamped branch. -/
def updateDelay (cfg : RetryConfig) (d jv : ℚ) : ℚ :=
  match cfg.max_delay with
  | none => d * cfg.backoff + jv
  | some m => if m = 0 then d * cfg.backoff + jv else min (d * cfg.backoff + jv) m

/-- Evaluating `f(*f_args, **f_kwargs)`: with argument containers present
(`hasArgs = true`) it is the callable's n-th outcome; with the default
`None` containers the unpacking itself raises `TypeError` and `f` never
runs. -/
def attemptOutcome (f : Nat → CallOutcome α) (hasArgs : Bool) (n : Nat) :
    CallOutcome α :=
  if hasArgs then f n else .exn typeErrorExc

/-- How many invocations of `f` the attempt performs (0 when unpacking the
`None` argument containers fails first). -/
def attemptInvokes (hasArgs : Bool) : Nat :=
  if hasArgs then 1 else 0

/-- The `while _tries > 0` loop of `__retry_internal`.  Fuel `n` is the
current value of `_tries` (loop entry requires it positive); `idx` counts
rounds so far; `d` is `_delay`.  One failed round: catch a matchable
exception, decrement `_tries`, re-raise if it reached 0, else warn (if the
logger is truthy), sleep, draw the jitter and update the delay. -/
def retryLoop (f : Nat → CallOutcome α) (cfg : RetryConfig) (rand : Nat → ℚ)
    (hasArgs : Bool) : Nat → Nat → ℚ → LoopOut α
  | 0, _, _ => ⟨.pyNone, [], 0⟩
  | n + 1, idx, d =>
    match attemptOutcome f hasArgs idx with
    | .ok v => ⟨.ok v, [], attemptInvokes hasArgs⟩
    | .exn e =>
      if cfg.exceptions e.kind then
        if n = 0 then ⟨.raised e, [], attemptInvokes hasArgs⟩
        else
          let evs := (if cfg.logger then [Event.warn e d] else []) ++ [Event.sleep d]
          let rest := retryLoop f cfg rand hasArgs n (idx + 1)
            (updateDelay cfg d (jitterValue cfg.jitter rand idx))
          ⟨rest.result, evs ++ rest.events, attemptInvokes hasArgs + rest.invocations⟩
      else ⟨.raised e, [], attemptInvokes hasArgs⟩

/-- `__retry_internal(f, config, f_args, f_kwargs)`:
`_delay = config["delay"]; _tries = config["tries"]; while _tries > 0: …`. -/
def retry_internal (f : Nat → CallOutcome α) (cfg : RetryConfig)
    (rand : Nat → ℚ) (hasArgs : Bool) : LoopOut α :=
  retryLoop f cfg rand hasArgs cfg.tries.toNat 0 cfg.delay

/-- `(jitter, jitter) if isinstance(jitter, (int, float)) else jitter`,
performed by both public wrappers when building the config dict. -/
def normalizeJitter : JitterSpec → JitterSpec
  | .num j => .tup j j
  | .tup lo hi => .tup lo hi

/-- The config dict literally built by `retry` and `retry_call`. -/
def mkConfig (exceptions : Nat → Bool) (tries : Int) (delay : ℚ)
    (max_delay : Option ℚ) (backoff : ℚ) (jitter : JitterSpec)
    (logger : Bool) : RetryConfig :=
  ⟨exceptions, tries, delay, max_delay, backoff, normalizeJitter jitter, logger⟩

/-- `retry_call(f, f_args, f_kwargs, exceptions, tries, …)`: builds the
config dict and calls `__retry_internal`. -/
def retry_call (f : Nat → CallOutcome α) (exceptions : Nat → Bool)
    (tries : Int) (delay : ℚ) (max_delay : Option ℚ) (backoff : ℚ)
    (jitter : JitterSpec) (logger : Bool) (rand : Nat → ℚ)
    (hasArgs : Bool) : LoopOut α :=
  retry_internal f (mkConfig exceptions tries delay max_delay backoff jitter logger)
    rand hasArgs

/-- What a single Python call expression can hand back in the decorator
chain: an ordinary function object (a closure), or a `TypeError` for a
call with the wrong arity. -/
inductive DecoratedOutcome where
  | functionObject
  | arityTypeError
  deriving DecidableEq, Repr

/-- Calling `retry(…)(g)` with `k` positional arguments.  In the source,
`retry_decorator(g)` applies `compat.decorator` to the *inner* `wrapper`,
so it returns `decor`, whose sole parameter is `f`; `decor` called with
exactly one argument returns the `functools.wraps` closure (a function
object), and any other arity raises `TypeError`.  The retry loop itself is
not entered by this call. -/
def decoratedCall (k : Nat) : DecoratedOutcome :=
  if k = 1 then .functionObject else .arityTypeError

/-- The exception carried by a failing outcome (`default` on success;
only ever used where the outcome is known to be an exception). -/
def excOf : CallOutcome α → Exc
  | .ok _ => ⟨0, 0⟩
  | .exn e => e

/-- Is the event a sink (logger) warning? -/
def isWarn : Event → Bool
  | .warn _ _ => true
  | .sleep _ => false

/-- Is the event a sleep? -/
def isSleep : Event → Bool
  | .warn _ _ => false
  | .sleep _ => true

/-- Number of sink warnings in a trace. -/
def warnCount (l : List Event) : Nat := l.countP isWarn

/-- Number of sleeps in a trace. -/
def sleepCount (l : List Event) : Nat := l.countP isSleep

/-- The successive values of `_delay`: the duration of the (i+1)-th sleep
of a run that keeps failing, starting from round `idx` with delay `d`. -/
def delaySeq (cfg : RetryConfig) (rand : Nat → ℚ) (idx : Nat) (d : ℚ) :
    Nat → ℚ
  | 0 => d
  | i + 1 => updateDelay cfg (delaySeq cfg rand idx d i)
      (jitterValue cfg.jitter rand (idx + i))

/-- The delay recurrence claimed for fixed jitter `j` with no cap:
`s 0 = d0`, `s (k+1) = s k * b + j`. -/
def fixedJitterSeq (d0 b j : ℚ) : Nat → ℚ
  | 0 => d0
  | k + 1 => fixedJitterSeq d0 b j k * b + j

/-! ### Helper lemmas about the loop -/

theorem retryLoop_rand_congr (f : Nat → CallOutcome α) (cfg : RetryConfig)
    (rand rand' : Nat → ℚ) (hasArgs : Bool)
    (h : ∀ k, jitterValue cfg.jitter rand k = jitterValue cfg.jitter rand' k) :
    ∀ n idx d, retryLoop f cfg rand hasArgs n idx d
      = retryLoop f cfg rand' hasArgs n idx d
  | 0, _, _ => rfl
  | n + 1, idx, d => by
    simp only [retryLoop]
    cases attemptOutcome f hasArgs idx with
    | ok v => rfl
    | exn e =>
      by_cases hc : cfg.exceptions e.kind
      · simp only [hc, if_true]
        by_cases hn : n = 0
        · simp [hn]
        · simp only [hn, if_false]
          rw [h idx,
            retryLoop_rand_congr f cfg rand rand' hasArgs h n (idx + 1)
              (updateDelay cfg d (jitterValue cfg.jitter rand' idx))]
      · simp [hc]


/-- One-step unfolding: a successful attempt returns immediately. -/
theorem retryLoop_step_ok (f : Nat → CallOutcome α) (cfg : RetryConfig)
    (rand : Nat → ℚ) (n idx : Nat) (d : ℚ) (v : α)
    (hfo : f idx = CallOutcome.ok v) :
    retryLoop f cfg rand true (n + 1) idx d = ⟨RunResult.ok v, [], 1⟩ := by
  conv_lhs => rw [retryLoop]
  simp [attemptOutcome, attemptInvokes, hfo]

/-- One-step unfolding: an unmatched exception propagates at once. -/
theorem retryLoop_step_unmatched (f : Nat → CallOutcome α) (cfg : RetryConfig)
    (rand : Nat → ℚ) (n idx : Nat) (d : ℚ) (e : Exc)
    (hfe : f idx = CallOutcome.exn e) (hke : cfg.exceptions e.kind = false) :
    retryLoop f cfg rand true (n + 1) idx d = ⟨RunResult.raised e, [], 1⟩ := by
  conv_lhs => rw [retryLoop]
  simp [attemptOutcome, attemptInvokes, hfe, hke]

/-- One-step unfolding: a matched exception on the last allowed attempt
re-raises. -/
theorem retryLoop_step_last (f : Nat → CallOutcome α) (cfg : RetryConfig)
    (rand : Nat → ℚ) (idx : Nat) (d : ℚ) (e : Exc)
    (hfe : f idx = CallOutcome.exn e) (hke : cfg.exceptions e.kind = true) :
    retryLoop f cfg rand true 1 idx d = ⟨RunResult.raised e, [], 1⟩ := by
  conv_lhs => rw [retryLoop]
  simp [attemptOutcome, attemptInvokes, hfe, hke]

/-- One-step unfolding: a matched exception with attempts to spare warns,
sleeps, updates the delay and loops. -/
theorem retryLoop_step_retry (f : Nat → CallOutcome α) (cfg : RetryConfig)
    (rand : Nat → ℚ) (n idx : Nat) (d : ℚ) (e : Exc)
    (hfe : f idx = CallOutcome.exn e) (hke : cfg.exceptions e.kind = true)
    (hn : n ≠ 0) :
    retryLoop f cfg rand true (n + 1) idx d =
      ⟨(retryLoop f cfg rand true n (idx + 1)
          (updateDelay cfg d (jitterValue cfg.jitter rand idx))).result,
        ((if cfg.logger then [Event.warn e d] else []) ++ [Event.sleep d]) ++
          (retryLoop f cfg rand true n (idx + 1)
            (updateDelay cfg d (jitterValue cfg.jitter rand idx))).events,
        1 + (retryLoop f cfg rand true n (idx + 1)
          (updateDelay cfg d (jitterValue cfg.jitter rand idx))).invocations⟩ := by
  conv_lhs => rw [retryLoop]
  simp [attemptOutcome, attemptInvokes, hfe, hke, hn]

/-- One-step unfolding with `None` argument containers: the unpacking
`TypeError` is re-raised at once when the budget is spent or not caught. -/
theorem retryLoop_step_noArgs_raise (f : Nat → CallOutcome α)
    (cfg : RetryConfig) (rand : Nat → ℚ) (idx : Nat) (d : ℚ) :
    (cfg.exceptions typeErrorKind = false →
      ∀ n, retryLoop f cfg rand false (n + 1) idx d
        = ⟨RunResult.raised typeErrorExc, [], 0⟩)
    ∧ (cfg.exceptions typeErrorKind = true →
      retryLoop f cfg rand false 1 idx d
        = ⟨RunResult.raised typeErrorExc, [], 0⟩) := by
  constructor
  · intro hke n
    conv_lhs => rw [retryLoop]
    simp [attemptOutcome, attemptInvokes, typeErrorExc, hke]
  · intro hke
    conv_lhs => rw [retryLoop]
    simp [attemptOutcome, attemptInvokes, typeErrorExc, hke]

/-- One-step unfolding with `None` argument containers: the caught
`TypeError` consumes an attempt and loops, without invoking `f`. -/
theorem retryLoop_step_noArgs_retry (f : Nat → CallOutcome α)
    (cfg : RetryConfig) (rand : Nat → ℚ) (n idx : Nat) (d : ℚ)
    (hke : cfg.exceptions typeErrorKind = true) (hn : n ≠ 0) :
    retryLoop f cfg rand false (n + 1) idx d =
      ⟨(retryLoop f cfg rand false n (idx + 1)
          (updateDelay cfg d (jitterValue cfg.jitter rand idx))).result,
        ((if cfg.logger then [Event.warn typeErrorExc d] else [])
            ++ [Event.sleep d]) ++
          (retryLoop f cfg rand false n (idx + 1)
            (updateDelay cfg d (jitterValue cfg.jitter rand idx))).events,
        0 + (retryLoop f cfg rand false n (idx + 1)
          (updateDelay cfg d (jitterValue cfg.jitter rand idx))).invocations⟩ := by
  conv_lhs => rw [retryLoop]
  simp [attemptOutcome, attemptInvokes, typeErrorExc, hke, hn]

/-- A callable that keeps failing with matched exceptions: the loop uses up
all its fuel, makes one invocation per unit of fuel, warns once per retried
(non-final) failure when the logger is truthy, sleeps once per retried
failure, and re-raises the exception of the final attempt. -/
theorem retryLoop_allFail (f : Nat → CallOutcome α) (cfg : RetryConfig)
    (rand : Nat → ℚ)
    (hfail : ∀ i, ∃ e, f i = CallOutcome.exn e ∧ cfg.exceptions e.kind = true) :
    ∀ n idx d,
      (retryLoop f cfg rand true (n + 1) idx d).result
          = RunResult.raised (excOf (f (idx + n)))
      ∧ (retryLoop f cfg rand true (n + 1) idx d).invocations = n + 1
      ∧ warnCount (retryLoop f cfg rand true (n + 1) idx d).events
          = (if cfg.logger then n else 0)
      ∧ sleepCount (retryLoop f cfg rand true (n + 1) idx d).events = n := by
  intro n
  induction n with
  | zero =>
    intro idx d
    obtain ⟨e, hfe, hke⟩ := hfail idx
    rw [retryLoop_step_last f cfg rand idx d e hfe hke]
    simp [hfe, excOf, warnCount, sleepCount]
  | succ n ih =>
    intro idx d
    obtain ⟨e, hfe, hke⟩ := hfail idx
    obtain ⟨ih1, ih2, ih3, ih4⟩ := ih (idx + 1)
      (updateDelay cfg d (jitterValue cfg.jitter rand idx))
    rw [retryLoop_step_retry f cfg rand (n + 1) idx d e hfe hke (Nat.succ_ne_zero n)]
    dsimp only
    refine ⟨?_, ?_, ?_, ?_⟩
    · rw [show idx + (n + 1) = idx + 1 + n by omega]
      exact ih1
    · rw [ih2]
      omega
    · simp only [warnCount, List.countP_append] at ih3 ⊢
      rw [ih3]
      cases hl : cfg.logger <;> simp [isWarn, List.countP_cons] <;> omega
    · simp only [sleepCount, List.countP_append] at ih4 ⊢
      rw [ih4]
      cases hl : cfg.logger <;> simp [isSleep, List.countP_cons] <;> omega

/-- A callable that fails `K` times with matched exceptions and then
succeeds, within the fuel budget: the loop returns the success value after
exactly `K + 1` invocations, `K` retry warnings (when the logger is truthy)
and `K` sleeps. -/
theorem retryLoop_success (f : Nat → CallOutcome α) (cfg : RetryConfig)
    (rand : Nat → ℚ) (v : α) :
    ∀ K n idx d, K < n →
      (∀ i, i < K → ∃ e, f (idx + i) = CallOutcome.exn e
        ∧ cfg.exceptions e.kind = true) →
      f (idx + K) = CallOutcome.ok v →
      (retryLoop f cfg rand true n idx d).result = RunResult.ok v
      ∧ (retryLoop f cfg rand true n idx d).invocations = K + 1
      ∧ warnCount (retryLoop f cfg rand true n idx d).events
          = (if cfg.logger then K else 0)
      ∧ sleepCount (retryLoop f cfg rand true n idx d).events = K := by
  intro K
  induction K with
  | zero =>
    intro n idx d hKn _hfail hok
    obtain ⟨m, rfl⟩ : ∃ m, n = m + 1 := ⟨n - 1, by omega⟩
    rw [retryLoop_step_ok f cfg rand m idx d v (by simpa using hok)]
    simp [warnCount, sleepCount]
  | succ K ih =>
    intro n idx d hKn hfail hok
    obtain ⟨m, rfl⟩ : ∃ m, n = m + 1 := ⟨n - 1, by omega⟩
    obtain ⟨e, hfe, hke⟩ := hfail 0 (Nat.succ_pos K)
    rw [retryLoop_step_retry f cfg rand m idx d e (by simpa using hfe) hke
      (by omega)]
    obtain ⟨ih1, ih2, ih3, ih4⟩ := ih m (idx + 1)
      (updateDelay cfg d (jitterValue cfg.jitter rand idx)) (by omega)
      (fun i hi => by
        obtain ⟨e', hfe', hke'⟩ := hfail (i + 1) (by omega)
        exact ⟨e', by rw [show idx + 1 + i = idx + (i + 1) by omega]; exact hfe',
          hke'⟩)
      (by rw [show idx + 1 + K = idx + (K + 1) by omega]; exact hok)
    dsimp only
    refine ⟨ih1, by rw [ih2]; omega, ?_, ?_⟩
    · simp only [warnCount, List.countP_append] at ih3 ⊢
      rw [ih3]
      cases hl : cfg.logger <;> simp [isWarn, List.countP_cons] <;> omega
    · simp only [sleepCount, List.countP_append] at ih4 ⊢
      rw [ih4]
      cases hl : cfg.logger <;> simp [isSleep, List.countP_cons] <;> omega

/-- With `f_args = None` the callable is never invoked; if the `TypeError`
from unpacking is matched and at least one attempt is allowed, the loop
consumes its whole budget re-raising the `TypeError`, sleeping once per
retried attempt. -/
theorem retryLoop_noArgs (f : Nat → CallOutcome α) (cfg : RetryConfig)
    (rand : Nat → ℚ) :
    ∀ n idx d,
      (retryLoop f cfg rand false n idx d).invocations = 0
      ∧ (cfg.exceptions typeErrorKind = true → 0 < n →
          (retryLoop f cfg rand false n idx d).result
              = RunResult.raised typeErrorExc
          ∧ sleepCount (retryLoop f cfg rand false n idx d).events = n - 1) := by
  intro n
  induction n with
  | zero => intro idx d; exact ⟨rfl, fun _ h => absurd h (by omega)⟩
  | succ n ih =>
    intro idx d
    by_cases hke : cfg.exceptions typeErrorKind
    · by_cases hn : n = 0
      · subst hn
        rw [(retryLoop_step_noArgs_raise f cfg rand idx d).2 hke]
        exact ⟨rfl, fun _ _ => ⟨rfl, rfl⟩⟩
      · obtain ⟨ih1, ih2⟩ := ih (idx + 1)
          (updateDelay cfg d (jitterValue cfg.jitter rand idx))
        obtain ⟨ih2a, ih2b⟩ := ih2 hke (by omega)
        rw [retryLoop_step_noArgs_retry f cfg rand n idx d hke hn]
        dsimp only
        refine ⟨by rw [ih1], fun _ _ => ⟨ih2a, ?_⟩⟩
        simp only [sleepCount, List.countP_append] at ih2b ⊢
        rw [ih2b]
        cases hl : cfg.logger <;> simp [isSleep, List.countP_cons] <;> omega
    · rw [(retryLoop_step_noArgs_raise f cfg rand idx d).1 (by simpa using hke) n]
      exact ⟨rfl, fun h _ => absurd h (by simp_all)⟩

/-- Shifting the start of the delay sequence by one round. -/
theorem delaySeq_shift (cfg : RetryConfig) (rand : Nat → ℚ) :
    ∀ i idx d, delaySeq cfg rand idx d (i + 1)
      = delaySeq cfg rand (idx + 1)
          (updateDelay cfg d (jitterValue cfg.jitter rand idx)) i
  | 0, idx, d => by simp [delaySeq]
  | i + 1, idx, d => by
    have h1 : idx + (i + 1) = (idx + 1) + i := by omega
    conv_lhs => rw [show (i + 1) + 1 = (i + 1) + 1 from rfl, delaySeq]
    conv_rhs => rw [delaySeq]
    rw [delaySeq_shift cfg rand i idx d, h1]

/-- With the logger untruthy and a callable that keeps failing with matched
exceptions, the event trace is exactly the sleeps, one per retried attempt,
with durations given by `delaySeq`. -/
theorem retryLoop_allFail_sleeps (f : Nat → CallOutcome α) (cfg : RetryConfig)
    (rand : Nat → ℚ) (hlog : cfg.logger = false)
    (hfail : ∀ i, ∃ e, f i = CallOutcome.exn e ∧ cfg.exceptions e.kind = true) :
    ∀ n idx d, (retryLoop f cfg rand true (n + 1) idx d).events
      = (List.range n).map (fun i => Event.sleep (delaySeq cfg rand idx d i)) := by
  intro n
  induction n with
  | zero =>
    intro idx d
    obtain ⟨e, hfe, hke⟩ := hfail idx
    rw [retryLoop_step_last f cfg rand idx d e hfe hke]
    simp
  | succ n ih =>
    intro idx d
    obtain ⟨e, hfe, hke⟩ := hfail idx
    rw [retryLoop_step_retry f cfg rand (n + 1) idx d e hfe hke (Nat.succ_ne_zero n)]
    dsimp only
    rw [hlog, ih (idx + 1) (updateDelay cfg d (jitterValue cfg.jitter rand idx))]
    rw [List.range_succ_eq_map]
    simp only [if_neg Bool.false_ne_true, List.nil_append, List.map_cons,
      List.map_map, List.singleton_append, List.cons.injEq]
    refine ⟨rfl, ?_⟩
    apply List.map_congr_left
    intro i _
    simp only [Function.comp_apply]
    congr 1
    exact (delaySeq_shift cfg rand i idx d).symm

/-- Zero jitter, truthy cap `m`, initial delay within the cap and backoff
at least 1: the delay sequence is `min (d * b ^ i) m`. -/
theorem delaySeq_zero_jitter_cap (cfg : RetryConfig) (rand : Nat → ℚ)
    (idx : Nat) (m : ℚ) (hm : cfg.max_delay = some m) (hm0 : m ≠ 0)
    (hjv : ∀ k, jitterValue cfg.jitter rand k = 0)
    (d : ℚ) (hd0 : 0 ≤ d) (hdm : d ≤ m) (hb : 0 ≤ cfg.backoff) :
    ∀ i, delaySeq cfg rand idx d i = min (d * cfg.backoff ^ i) m := by
  intro i
  induction i with
  | zero => simp [delaySeq, min_eq_left hdm]
  | succ i ih =>
    have hm' : 0 ≤ m := le_trans hd0 hdm
    rw [delaySeq, ih, hjv]
    simp only [updateDelay, hm]
    rw [if_neg hm0, add_zero]
    rcases le_total (d * cfg.backoff ^ i) m with h | h
    · rw [min_eq_left h, pow_succ, ← mul_assoc]
    · rw [min_eq_right h]
      rcases le_total 1 cfg.backoff with hb1 | hb1
      · have h1 : m ≤ m * cfg.backoff := le_mul_of_one_le_right hm' hb1
        have h2 : m ≤ d * cfg.backoff ^ (i + 1) := by
          rw [pow_succ, ← mul_assoc]
          calc m = m * 1 := (mul_one m).symm
            _ ≤ d * cfg.backoff ^ i * cfg.backoff :=
              mul_le_mul h hb1 zero_le_one (le_trans hm' h)
        rw [min_eq_right h1, min_eq_right h2]
      · have hpow : cfg.backoff ^ i ≤ 1 := pow_le_one₀ hb hb1
        have hle : d * cfg.backoff ^ i ≤ m :=
          le_trans (mul_le_of_le_one_right hd0 hpow) hdm
        have heq : d * cfg.backoff ^ i = m := le_antisymm hle h
        rw [pow_succ, ← mul_assoc, heq]

/-- Zero jitter and an untruthy cap: the delay sequence is pure geometric
backoff `d * b ^ i`. -/
theorem delaySeq_zero_jitter_nocap (cfg : RetryConfig) (rand : Nat → ℚ)
    (idx : Nat) (hm : cfg.max_delay = none)
    (hjv : ∀ k, jitterValue cfg.jitter rand k = 0) (d : ℚ) :
    ∀ i, delaySeq cfg rand idx d i = d * cfg.backoff ^ i := by
  intro i
  induction i with
  | zero => simp [delaySeq]
  | succ i ih =>
    rw [delaySeq, ih, hjv]
    simp only [updateDelay, hm]
    rw [add_zero, pow_succ, ← mul_assoc]

/-- Fixed jitter value `j` and an untruthy cap: the delay sequence is the
recurrence `s 0 = d`, `s (k+1) = s k * b + j`. -/
theorem delaySeq_fixed_jitter_nocap (cfg : RetryConfig) (rand : Nat → ℚ)
    (idx : Nat) (hm : cfg.max_delay = none) (j : ℚ)
    (hjv : ∀ k, jitterValue cfg.jitter rand k = j) (d : ℚ) :
    ∀ i, delaySeq cfg rand idx d i = fixedJitterSeq d cfg.backoff j i := by
  intro i
  induction i with
  | zero => simp [delaySeq, fixedJitterSeq]
  | succ i ih =>
    rw [delaySeq, ih, hjv]
    simp only [updateDelay, hm]
    rw [fixedJitterSeq]

/-- `max_delay = 0` behaves exactly like `max_delay = None`: the loop is
identical with the cap removed. -/
theorem retryLoop_maxDelay_zero (f : Nat → CallOutcome α) (cfg : RetryConfig)
    (rand : Nat → ℚ) (hasArgs : Bool) (hm : cfg.max_delay = some 0) :
    ∀ n idx d, retryLoop f cfg rand hasArgs n idx d
      = retryLoop f { cfg with max_delay := none } rand hasArgs n idx d
  | 0, _, _ => rfl
  | n + 1, idx, d => by
    conv_lhs => rw [retryLoop]
    conv_rhs => rw [retryLoop]
    cases attemptOutcome f hasArgs idx with
    | ok v => rfl
    | exn e =>
      by_cases hc : cfg.exceptions e.kind
      · simp only [hc, if_true]
        by_cases hn : n = 0
        · simp [hn]
        · simp only [hn, if_false]
          have hud : ∀ d' jv, updateDelay cfg d' jv
              = updateDelay { cfg with max_delay := none } d' jv := by
            intro d' jv
            simp [updateDelay, hm]
          rw [← hud,
            retryLoop_maxDelay_zero f cfg rand hasArgs hm n (idx + 1)
              (updateDelay cfg d (jitterValue cfg.jitter rand idx))]
      · simp [hc]

/-- `jitterValue` over the normalized pair `(j, j)` is `j` for every random
source: `random.uniform(j, j) = j + (j - j) * random()`. -/
theorem jitterValue_normalized_num (j : ℚ) (rand : Nat → ℚ) (k : Nat) :
    jitterValue (normalizeJitter (JitterSpec.num j)) rand k = j := by
  simp [normalizeJitter, jitterValue]

/-- Positive `tries` stated as a natural number of loop iterations. -/
theorem tries_toNat_eq (N : Nat) : ((N : Int)).toNat = N := Int.toNat_natCast N

/-! ### Claims -/

/-- Claim C1, refuted by the code (code bug): the spec and the function's
own docstring say `tries = -1` means unlimited attempts, but
`while _tries > 0` is false at `-1`, so the executor never invokes the
callable at all — even one that would succeed immediately — performs no
retry, and falls through returning `None`. -/
theorem C1_unlimited_tries_never_invokes :
    retry_internal (fun _ => CallOutcome.ok 42)
      ⟨fun _ => true, -1, 0, none, 1, JitterSpec.tup 0 0, true⟩
      (fun _ => 0) true
      = ⟨RunResult.pyNone, [], 0⟩ := rfl

/-- Claim C2, refuted by the code (code bug): the decorator adapter is not
a pass-through.  `retry(…)(g)` is `decor` (because `compat.decorator` is
applied to the inner `wrapper`), so calling the decorated function with one
positional argument returns a function object and any other arity raises
`TypeError`; the retry executor invoked directly on the same callable
returns its value. -/
theorem C2_decorator_not_passthrough :
    decoratedCall 1 = DecoratedOutcome.functionObject
    ∧ decoratedCall 2 = DecoratedOutcome.arityTypeError
    ∧ decoratedCall 0 = DecoratedOutcome.arityTypeError
    ∧ (retry_call (fun _ => CallOutcome.ok 7) (fun _ => true) 3 0 none 1
        (JitterSpec.num 0) false (fun _ => 0) true).result
        = RunResult.ok 7 :=
  ⟨rfl, rfl, rfl, rfl⟩

/-- Claim C3 (confirmed): with `tries = N > 0`, a callable that always
fails with a matchable exception is invoked exactly `N` times and then the
final failure propagates; with `N = 1` exactly one attempt is made and no
retry (no warn, no sleep) occurs. -/
theorem C3_always_failing_invoked_N_times {α : Type} (cfg : RetryConfig)
    (f : Nat → CallOutcome α) (rand : Nat → ℚ) (N : Nat) (hN : 0 < N)
    (htries : cfg.tries = (N : Int))
    (hfail : ∀ i, ∃ e, f i = CallOutcome.exn e ∧ cfg.exceptions e.kind = true) :
    (retry_internal f cfg rand true).invocations = N
    ∧ (∃ e, f (N - 1) = CallOutcome.exn e
        ∧ (retry_internal f cfg rand true).result = RunResult.raised e)
    ∧ (N = 1 → (retry_internal f cfg rand true).events = []) := by
  obtain ⟨n, rfl⟩ : ∃ n, N = n + 1 := ⟨N - 1, by omega⟩
  have ht : cfg.tries.toNat = n + 1 := by rw [htries]; exact tries_toNat_eq _
  obtain ⟨h1, h2, _, _⟩ := retryLoop_allFail f cfg rand hfail n 0 cfg.delay
  obtain ⟨e, hfe, hke⟩ := hfail n
  have hz : (0 : Nat) + n = n := by omega
  rw [hz] at h1
  refine ⟨?_, ⟨e, by simpa using hfe, ?_⟩, ?_⟩
  · unfold retry_internal
    rw [ht]
    exact h2
  · unfold retry_internal
    rw [ht, h1, hfe]
    rfl
  · intro hN1
    obtain rfl : n = 0 := by omega
    unfold retry_internal
    rw [ht, retryLoop_step_last f cfg rand 0 cfg.delay e hfe hke]

/-- Witness for C3: `tries = 3`, every attempt fails with kind 1; three
invocations and the third failure propagates. -/
theorem C3_witness :
    (retry_internal (fun i => (CallOutcome.exn ⟨1, i⟩ : CallOutcome Nat))
      ⟨fun _ => true, 3, 1, none, 2, JitterSpec.tup 0 0, true⟩
      (fun _ => 0) true).invocations = 3
    ∧ (∃ e, (fun i => (CallOutcome.exn ⟨1, i⟩ : CallOutcome Nat)) (3 - 1)
          = CallOutcome.exn e
        ∧ (retry_internal (fun i => (CallOutcome.exn ⟨1, i⟩ : CallOutcome Nat))
            ⟨fun _ => true, 3, 1, none, 2, JitterSpec.tup 0 0, true⟩
            (fun _ => 0) true).result = RunResult.raised e)
    ∧ ((3 : Nat) = 1 → (retry_internal (fun i => (CallOutcome.exn ⟨1, i⟩ : CallOutcome Nat))
        ⟨fun _ => true, 3, 1, none, 2, JitterSpec.tup 0 0, true⟩
        (fun _ => 0) true).events = []) :=
  C3_always_failing_invoked_N_times
    ⟨fun _ => true, 3, 1, none, 2, JitterSpec.tup 0 0, true⟩
    (fun i => (CallOutcome.exn ⟨1, i⟩ : CallOutcome Nat)) (fun _ => 0) 3 (by norm_num) rfl
    (fun i => ⟨⟨1, i⟩, rfl, rfl⟩)

/-- Counterexample to claim C4 as stated: it quantifies over every policy
("regardless of the max-attempts setting"), but with `tries = -1` a
callable raising an unmatched exception is invoked zero times — not
exactly once — and no failure propagates: the executor returns `None`. -/
theorem C4_counterexample :
    (retry_internal (fun _ => (CallOutcome.exn ⟨5, 0⟩ : CallOutcome Nat))
      ⟨fun _ => false, -1, 0, none, 1, JitterSpec.tup 0 0, true⟩
      (fun _ => 0) true).invocations = 0
    ∧ ¬ ((retry_internal (fun _ => (CallOutcome.exn ⟨5, 0⟩ : CallOutcome Nat))
        ⟨fun _ => false, -1, 0, none, 1, JitterSpec.tup 0 0, true⟩
        (fun _ => 0) true).invocations = 1
      ∧ (retry_internal (fun _ => (CallOutcome.exn ⟨5, 0⟩ : CallOutcome Nat))
          ⟨fun _ => false, -1, 0, none, 1, JitterSpec.tup 0 0, true⟩
          (fun _ => 0) true).result = RunResult.raised ⟨5, 0⟩) := by
  decide

/-- Claim C4 as amended: for every policy with max attempts ≥ 1, a callable
whose first failure kind is not matchable is invoked exactly once and the
failure propagates immediately and unchanged, with no sink event and no
sleep (with a non-positive max-attempts setting the executor instead
returns `None` without invoking the callable, per the C1 bug). -/
theorem C4_amended_unmatched_propagates_once {α : Type} (cfg : RetryConfig)
    (f : Nat → CallOutcome α) (rand : Nat → ℚ) (e : Exc)
    (htries : 0 < cfg.tries) (hf : f 0 = CallOutcome.exn e)
    (hke : cfg.exceptions e.kind = false) :
    retry_internal f cfg rand true = ⟨RunResult.raised e, [], 1⟩ := by
  obtain ⟨n, hn⟩ : ∃ n, cfg.tries.toNat = n + 1 := ⟨cfg.tries.toNat - 1, by omega⟩
  unfold retry_internal
  rw [hn]
  exact retryLoop_step_unmatched f cfg rand n 0 cfg.delay e hf hke

/-- Witness for the amended C4: `tries = 4`, matchable kinds are only kind
1, the callable raises kind 5 with payload 7: one invocation, the same
exception propagates, no events. -/
theorem C4_amended_witness :
    retry_internal (fun _ => (CallOutcome.exn ⟨5, 7⟩ : CallOutcome Nat))
      ⟨fun k => decide (k = 1), 4, 1, none, 2, JitterSpec.tup 0 0, true⟩
      (fun _ => 0) true
      = ⟨RunResult.raised ⟨5, 7⟩, [], 1⟩ :=
  C4_amended_unmatched_propagates_once
    ⟨fun k => decide (k = 1), 4, 1, none, 2, JitterSpec.tup 0 0, true⟩
    (fun _ => CallOutcome.exn ⟨5, 7⟩) (fun _ => 0) ⟨5, 7⟩ (by norm_num) rfl rfl

/-- Claim C5 (confirmed): when the attempt budget is exhausted, the
propagated exception is exactly the instance raised on the final attempt —
same kind and same payload, no wrapping — and when first and last differ it
is not the first. -/
theorem C5_last_failure_propagates_unchanged {α : Type} (cfg : RetryConfig)
    (f : Nat → CallOutcome α) (rand : Nat → ℚ) (N : Nat) (hN : 0 < N)
    (htries : cfg.tries = (N : Int))
    (hfail : ∀ i, ∃ e, f i = CallOutcome.exn e ∧ cfg.exceptions e.kind = true) :
    (retry_internal f cfg rand true).result
        = RunResult.raised (excOf (f (N - 1)))
    ∧ (excOf (f (N - 1)) ≠ excOf (f 0) →
        (retry_internal f cfg rand true).result
          ≠ RunResult.raised (excOf (f 0))) := by
  obtain ⟨n, rfl⟩ : ∃ n, N = n + 1 := ⟨N - 1, by omega⟩
  have ht : cfg.tries.toNat = n + 1 := by rw [htries]; exact tries_toNat_eq _
  obtain ⟨h1, _, _, _⟩ := retryLoop_allFail f cfg rand hfail n 0 cfg.delay
  have hz : (0 : Nat) + n = n := by omega
  rw [hz] at h1
  have hres : (retry_internal f cfg rand true).result
      = RunResult.raised (excOf (f n)) := by
    unfold retry_internal
    rw [ht]
    exact h1
  have hsub : n + 1 - 1 = n := by omega
  rw [hsub]
  refine ⟨hres, fun hne h => ?_⟩
  rw [hres] at h
  exact hne (RunResult.raised.inj h)

/-- Witness for C5: `tries = 3`, attempt `i` fails with payload `i`; the
propagated exception carries payload 2 (the last failure) and is not the
first failure (payload 0). -/
theorem C5_witness :
    (retry_internal (fun i => (CallOutcome.exn ⟨1, i⟩ : CallOutcome Nat))
      ⟨fun _ => true, 3, 1, none, 2, JitterSpec.tup 0 0, true⟩
      (fun _ => 0) true).result = RunResult.raised ⟨1, 2⟩
    ∧ (retry_internal (fun i => (CallOutcome.exn ⟨1, i⟩ : CallOutcome Nat))
      ⟨fun _ => true, 3, 1, none, 2, JitterSpec.tup 0 0, true⟩
      (fun _ => 0) true).result ≠ RunResult.raised ⟨1, 0⟩ := by
  have h := C5_last_failure_propagates_unchanged
    ⟨fun _ => true, 3, 1, none, 2, JitterSpec.tup 0 0, true⟩
    (fun i => (CallOutcome.exn ⟨1, i⟩ : CallOutcome Nat)) (fun _ => 0) 3
    (by norm_num) rfl (fun i => ⟨⟨1, i⟩, rfl, rfl⟩)
  exact ⟨h.1, h.2 (by decide)⟩

/-- Counterexample to claim C6 as stated, in two parts.  With `d0 = 20,
b = 2, maxDelay = 10` and zero jitter the claim's formula says the 1st
retry sleeps `min(d0 * b^0, m) = 10`, but the executor never clamps the
initial delay and sleeps 20.  And with `d0 = 1, b = 2, maxDelay = 0`
(a configured max delay) the formula says the retries sleep
`min(d0 * b^(N-1), 0) = 0`, but `if config["max_delay"]` is falsy at 0, so
nothing is ever clamped: the second retry sleeps 2, and even the update
`delay * backoff + jitter` is left unclamped. -/
theorem C6_counterexample :
    ((retry_internal (fun i => (CallOutcome.exn ⟨1, i⟩ : CallOutcome Nat))
      ⟨fun _ => true, 2, 20, some 10, 2, JitterSpec.tup 0 0, false⟩
      (fun _ => 0) true).events = [Event.sleep 20]
    ∧ ¬ ((20 : ℚ) = min ((20 : ℚ) * 2 ^ (0 : Nat)) 10))
    ∧ ((retry_internal (fun i => (CallOutcome.exn ⟨1, i⟩ : CallOutcome Nat))
      ⟨fun _ => true, 3, 1, some 0, 2, JitterSpec.tup 0 0, false⟩
      (fun _ => 0) true).events = [Event.sleep 1, Event.sleep 2]
    ∧ ¬ ((2 : ℚ) = min ((1 : ℚ) * 2 ^ (1 : Nat)) 0)
    ∧ updateDelay ⟨fun _ => true, 3, 1, some 0, 2, JitterSpec.tup 0 0, false⟩ 1 0
        = 2
    ∧ ¬ (updateDelay ⟨fun _ => true, 3, 1, some 0, 2, JitterSpec.tup 0 0, false⟩ 1 0
        = min ((1 : ℚ) * 2 + 0) 0)) := by
  refine ⟨⟨rfl, ?_⟩, ⟨?_, ?_, ?_, ?_⟩⟩
  · rw [min_def]
    norm_num
  · show (retryLoop (fun i => (CallOutcome.exn ⟨1, i⟩ : CallOutcome Nat))
      ⟨fun _ => true, 3, 1, some 0, 2, JitterSpec.tup 0 0, false⟩
      (fun _ => 0) true 3 0 1).events = [Event.sleep 1, Event.sleep 2]
    norm_num [retryLoop, attemptOutcome, attemptInvokes, updateDelay, jitterValue]
  · rw [min_def]
    norm_num
  · norm_num [updateDelay]
  · rw [min_def]
    norm_num [updateDelay]

/-- Claim C6 as amended: each round the delay is updated to
`delay * backoff + jitter` and, when a non-zero max delay `m` is
configured, clamped afterwards (after adding jitter) to `min(·, m)` — a
configured max delay of 0 is falsy and never clamps; the clamp is never
applied to the initial delay, so with zero jitter, `0 ≤ d0 ≤ m` and
`b ≥ 0` (the spec's domain for the backoff multiplier) the Nth retry
sleeps `min(d0 * b^(N-1), m)` (e.g. `d0=1, b=2, m=10` gives 1, 2, 4, 8,
10, 10, …), and with an untruthy cap it sleeps `d0 * b^(N-1)`. -/
theorem C6_amended_delay_sequence (cfg : RetryConfig)
    (f : Nat → CallOutcome Nat) (rand : Nat → ℚ) (n : Nat)
    (hfail : ∀ i, ∃ e, f i = CallOutcome.exn e ∧ cfg.exceptions e.kind = true)
    (htries : cfg.tries = ((n + 1 : Nat) : Int))
    (hlog : cfg.logger = false)
    (hjv : ∀ k, jitterValue cfg.jitter rand k = 0) :
    (∀ m, cfg.max_delay = some m → m ≠ 0 →
        (∀ d jv, updateDelay cfg d jv = min (d * cfg.backoff + jv) m)
        ∧ (0 ≤ cfg.delay → cfg.delay ≤ m → 0 ≤ cfg.backoff →
            (retry_internal f cfg rand true).events
              = (List.range n).map
                  (fun k => Event.sleep (min (cfg.delay * cfg.backoff ^ k) m))))
    ∧ (cfg.max_delay = none →
        (retry_internal f cfg rand true).events
          = (List.range n).map
              (fun k => Event.sleep (cfg.delay * cfg.backoff ^ k))) := by
  have ht : cfg.tries.toNat = n + 1 := by rw [htries]; exact tries_toNat_eq _
  constructor
  · intro m hm hm0
    constructor
    · intro d jv
      simp [updateDelay, hm, hm0]
    · intro hd0 hdm hb
      unfold retry_internal
      rw [ht, retryLoop_allFail_sleeps f cfg rand hlog hfail n 0 cfg.delay]
      apply List.map_congr_left
      intro i _
      congr 1
      exact delaySeq_zero_jitter_cap cfg rand 0 m hm hm0 hjv cfg.delay hd0 hdm hb i
  · intro hm
    unfold retry_internal
    rw [ht, retryLoop_allFail_sleeps f cfg rand hlog hfail n 0 cfg.delay]
    apply List.map_congr_left
    intro i _
    congr 1
    exact delaySeq_zero_jitter_nocap cfg rand 0 hm hjv cfg.delay i

/-- Witness for the amended C6: the spec's own example `d0=1, b=2, m=10`
with `tries = 7` gives sleeps 1, 2, 4, 8, 10, 10; a fractional backoff
`d0=8, b=1/2, m=10` with `tries = 4` gives 8, 4, 2; uncapped `d0=3, b=2`
with `tries = 4` gives 3, 6, 12. -/
theorem C6_amended_witness :
    (retry_internal (fun i => (CallOutcome.exn ⟨1, i⟩ : CallOutcome Nat))
      ⟨fun _ => true, 7, 1, some 10, 2, JitterSpec.tup 0 0, false⟩
      (fun _ => 0) true).events
      = [Event.sleep 1, Event.sleep 2, Event.sleep 4, Event.sleep 8,
          Event.sleep 10, Event.sleep 10]
    ∧ (retry_internal (fun i => (CallOutcome.exn ⟨1, i⟩ : CallOutcome Nat))
      ⟨fun _ => true, 4, 8, some 10, 1 / 2, JitterSpec.tup 0 0, false⟩
      (fun _ => 0) true).events
      = [Event.sleep 8, Event.sleep 4, Event.sleep 2]
    ∧ (retry_internal (fun i => (CallOutcome.exn ⟨1, i⟩ : CallOutcome Nat))
      ⟨fun _ => true, 4, 3, none, 2, JitterSpec.tup 0 0, false⟩
      (fun _ => 0) true).events
      = [Event.sleep 3, Event.sleep 6, Event.sleep 12] := by
  have h1 := ((C6_amended_delay_sequence
      ⟨fun _ => true, 7, 1, some 10, 2, JitterSpec.tup 0 0, false⟩
      (fun i => (CallOutcome.exn ⟨1, i⟩ : CallOutcome Nat)) (fun _ => 0) 6
      (fun i => ⟨⟨1, i⟩, rfl, rfl⟩) rfl rfl
      (fun k => by norm_num [jitterValue])).1 10 rfl (by norm_num)).2
      (by norm_num) (by norm_num) (by norm_num)
  have h2 := ((C6_amended_delay_sequence
      ⟨fun _ => true, 4, 8, some 10, 1 / 2, JitterSpec.tup 0 0, false⟩
      (fun i => (CallOutcome.exn ⟨1, i⟩ : CallOutcome Nat)) (fun _ => 0) 3
      (fun i => ⟨⟨1, i⟩, rfl, rfl⟩) rfl rfl
      (fun k => by norm_num [jitterValue])).1 10 rfl (by norm_num)).2
      (by norm_num) (by norm_num) (by norm_num)
  have h3 := (C6_amended_delay_sequence
      ⟨fun _ => true, 4, 3, none, 2, JitterSpec.tup 0 0, false⟩
      (fun i => (CallOutcome.exn ⟨1, i⟩ : CallOutcome Nat)) (fun _ => 0) 3
      (fun i => ⟨⟨1, i⟩, rfl, rfl⟩) rfl rfl
      (fun k => by norm_num [jitterValue])).2 rfl
  rw [h1, h2, h3]
  refine ⟨?_, ?_, ?_⟩
  · simp [List.range_succ, min_def]
    norm_num
  · simp [List.range_succ, min_def]
    norm_num
  · simp [List.range_succ]
    norm_num

/-- Claim C7 (confirmed): jitter given as a single number `j` is converted
by the public wrappers to the pair `(j, j)`, and `random.uniform(j, j)`
equals `j` for every random source, so the whole run is independent of
randomness, and with an untruthy cap the sleeps follow the deterministic
recurrence `delay_{n+1} = delay_n * backoff + j`. -/
theorem C7_fixed_jitter_deterministic {α : Type} (f : Nat → CallOutcome α)
    (exceptions : Nat → Bool) (tries : Int) (delay : ℚ)
    (max_delay : Option ℚ) (backoff j : ℚ) (logger : Bool) (hasArgs : Bool)
    (rand rand' : Nat → ℚ) :
    (∀ k, jitterValue (normalizeJitter (JitterSpec.num j)) rand k = j)
    ∧ retry_call f exceptions tries delay max_delay backoff
        (JitterSpec.num j) logger rand hasArgs
      = retry_call f exceptions tries delay max_delay backoff
        (JitterSpec.num j) logger rand' hasArgs
    ∧ (max_delay = none → logger = false →
        ∀ n, tries = ((n + 1 : Nat) : Int) →
        (∀ i, ∃ e, f i = CallOutcome.exn e ∧ exceptions e.kind = true) →
        (retry_call f exceptions tries delay max_delay backoff
            (JitterSpec.num j) logger rand true).events
          = (List.range n).map
              (fun k => Event.sleep (fixedJitterSeq delay backoff j k))) := by
  refine ⟨fun k => jitterValue_normalized_num j rand k, ?_, ?_⟩
  · unfold retry_call retry_internal
    exact retryLoop_rand_congr f
      (mkConfig exceptions tries delay max_delay backoff (JitterSpec.num j) logger)
      rand rand' hasArgs
      (fun k => by
        show jitterValue (normalizeJitter (JitterSpec.num j)) rand k
          = jitterValue (normalizeJitter (JitterSpec.num j)) rand' k
        rw [jitterValue_normalized_num j rand k,
          jitterValue_normalized_num j rand' k])
      _ _ _
  · intro hm hlog n htries hfail
    subst hm hlog htries
    unfold retry_call retry_internal
    rw [show (mkConfig exceptions (((n + 1 : Nat) : Int)) delay none backoff
        (JitterSpec.num j) false).tries.toNat = n + 1 from tries_toNat_eq _]
    rw [retryLoop_allFail_sleeps f
      (mkConfig exceptions (((n + 1 : Nat) : Int)) delay none backoff
        (JitterSpec.num j) false) rand rfl hfail n 0 _]
    apply List.map_congr_left
    intro i _
    congr 1
    exact delaySeq_fixed_jitter_nocap
      (mkConfig exceptions (((n + 1 : Nat) : Int)) delay none backoff
        (JitterSpec.num j) false) rand 0 rfl j
      (fun k => jitterValue_normalized_num j rand k) delay i

/-- Witness for C7: `j = 5, d0 = 1, b = 2, tries = 4`; two different random
sources give identical runs, and the sleeps are 1, 7, 19. -/
theorem C7_witness :
    retry_call (fun i => (CallOutcome.exn ⟨1, i⟩ : CallOutcome Nat))
        (fun _ => true) 4 1 none 2 (JitterSpec.num 5) false (fun _ => 0) true
      = retry_call (fun i => (CallOutcome.exn ⟨1, i⟩ : CallOutcome Nat))
        (fun _ => true) 4 1 none 2 (JitterSpec.num 5) false (fun _ => 1 / 2) true
    ∧ (retry_call (fun i => (CallOutcome.exn ⟨1, i⟩ : CallOutcome Nat))
        (fun _ => true) 4 1 none 2 (JitterSpec.num 5) false (fun _ => 0) true).events
      = [Event.sleep 1, Event.sleep 7, Event.sleep 19] := by
  have h := C7_fixed_jitter_deterministic
    (fun i => (CallOutcome.exn ⟨1, i⟩ : CallOutcome Nat)) (fun _ => true)
    4 1 none 2 5 false true (fun _ => 0) (fun _ => 1 / 2)
  refine ⟨h.2.1, ?_⟩
  rw [h.2.2 rfl rfl 3 rfl (fun i => ⟨⟨1, i⟩, rfl, rfl⟩)]
  simp [List.range_succ, fixedJitterSeq]
  norm_num

/-- Claim C8 (confirmed): with a truthy logger, the sink is notified
exactly once per retried (non-terminal) matched failure: `attempts_made - 1`
notifications when the callable eventually succeeds after `K` failures
(attempts made = K + 1), and `tries - 1` when the budget is exhausted; the
terminal propagated failure produces no notification. -/
theorem C8_sink_notified_once_per_retry {α : Type} (cfg : RetryConfig)
    (f : Nat → CallOutcome α) (rand : Nat → ℚ) (N : Nat)
    (hlog : cfg.logger = true) (hN : 0 < N)
    (htries : cfg.tries = (N : Int)) :
    (∀ K v, K < N →
      (∀ i, i < K → ∃ e, f i = CallOutcome.exn e ∧ cfg.exceptions e.kind = true) →
      f K = CallOutcome.ok v →
      warnCount (retry_internal f cfg rand true).events = K
      ∧ (retry_internal f cfg rand true).invocations = K + 1)
    ∧ ((∀ i, ∃ e, f i = CallOutcome.exn e ∧ cfg.exceptions e.kind = true) →
      warnCount (retry_internal f cfg rand true).events = N - 1) := by
  have ht : cfg.tries.toNat = N := by rw [htries]; exact tries_toNat_eq _
  constructor
  · intro K v hKN hfail hok
    obtain ⟨_, h2, h3, _⟩ := retryLoop_success f cfg rand v K N 0 cfg.delay hKN
      (fun i hi => by simpa using hfail i hi) (by simpa using hok)
    rw [hlog, if_pos rfl] at h3
    unfold retry_internal
    rw [ht]
    exact ⟨h3, h2⟩
  · intro hfail
    obtain ⟨n, rfl⟩ : ∃ n, N = n + 1 := ⟨N - 1, by omega⟩
    obtain ⟨_, _, h3, _⟩ := retryLoop_allFail f cfg rand hfail n 0 cfg.delay
    rw [hlog, if_pos rfl] at h3
    unfold retry_internal
    rw [ht]
    rw [h3]
    omega

/-- Witness for C8: failing twice then succeeding with `tries = 5` gives 2
sink notifications and 3 invocations; always failing with `tries = 4`
gives 3 notifications. -/
theorem C8_witness :
    (warnCount (retry_internal
        (fun i => if i < 2 then CallOutcome.exn ⟨1, i⟩ else CallOutcome.ok 9)
        ⟨fun _ => true, 5, 1, none, 2, JitterSpec.tup 0 0, true⟩
        (fun _ => 0) true).events = 2
      ∧ (retry_internal
        (fun i => if i < 2 then CallOutcome.exn ⟨1, i⟩ else CallOutcome.ok 9)
        ⟨fun _ => true, 5, 1, none, 2, JitterSpec.tup 0 0, true⟩
        (fun _ => 0) true).invocations = 2 + 1)
    ∧ warnCount (retry_internal
        (fun i => (CallOutcome.exn ⟨1, i⟩ : CallOutcome Nat))
        ⟨fun _ => true, 4, 1, none, 2, JitterSpec.tup 0 0, true⟩
        (fun _ => 0) true).events = 4 - 1 := by
  constructor
  · exact (C8_sink_notified_once_per_retry
      ⟨fun _ => true, 5, 1, none, 2, JitterSpec.tup 0 0, true⟩
      (fun i => if i < 2 then CallOutcome.exn ⟨1, i⟩ else CallOutcome.ok 9)
      (fun _ => 0) 5 rfl (by norm_num) rfl).1 2 9 (by norm_num)
      (fun i hi => ⟨⟨1, i⟩, by simp [hi], rfl⟩) (by norm_num)
  · exact (C8_sink_notified_once_per_retry
      ⟨fun _ => true, 4, 1, none, 2, JitterSpec.tup 0 0, true⟩
      (fun i => (CallOutcome.exn ⟨1, i⟩ : CallOutcome Nat))
      (fun _ => 0) 4 rfl (by norm_num) rfl).2
      (fun i => ⟨⟨1, i⟩, rfl, rfl⟩)

/-- Claim C9 (confirmed): a configured `max_delay = 0` is falsy in
`if config["max_delay"]`, so the executor behaves exactly as if no cap were
configured — the computed delay is never clamped and may exceed 0 — while
any non-zero configured cap clamps (after the jitter is added). -/
theorem C9_max_delay_zero_never_clamps {α : Type} (cfg : RetryConfig)
    (f : Nat → CallOutcome α) (rand : Nat → ℚ) (hasArgs : Bool)
    (hm : cfg.max_delay = some 0) :
    retry_internal f cfg rand hasArgs
      = retry_internal f { cfg with max_delay := none } rand hasArgs
    ∧ (∀ d jv, updateDelay cfg d jv = d * cfg.backoff + jv)
    ∧ (∀ (cfg2 : RetryConfig) (m : ℚ), cfg2.max_delay = some m → m ≠ 0 →
        ∀ d jv, updateDelay cfg2 d jv = min (d * cfg2.backoff + jv) m) := by
  refine ⟨?_, ?_, ?_⟩
  · unfold retry_internal
    exact retryLoop_maxDelay_zero f cfg rand hasArgs hm cfg.tries.toNat 0 cfg.delay
  · intro d jv
    simp [updateDelay, hm]
  · intro cfg2 m hm2 hm0 d jv
    simp [updateDelay, hm2, hm0]

/-- Witness for C9: `max_delay = 0` with `d0 = 1, b = 2` behaves like no
cap: the run equals the uncapped run and the sleeps 1, 2, 4 all exceed the
configured cap of 0. -/
theorem C9_witness :
    retry_internal (fun i => (CallOutcome.exn ⟨1, i⟩ : CallOutcome Nat))
        ⟨fun _ => true, 4, 1, some 0, 2, JitterSpec.tup 0 0, false⟩
        (fun _ => 0) true
      = retry_internal (fun i => (CallOutcome.exn ⟨1, i⟩ : CallOutcome Nat))
        ⟨fun _ => true, 4, 1, none, 2, JitterSpec.tup 0 0, false⟩
        (fun _ => 0) true
    ∧ (retry_internal (fun i => (CallOutcome.exn ⟨1, i⟩ : CallOutcome Nat))
        ⟨fun _ => true, 4, 1, some 0, 2, JitterSpec.tup 0 0, false⟩
        (fun _ => 0) true).events
      = [Event.sleep 1, Event.sleep 2, Event.sleep 4] := by
  have h := C9_max_delay_zero_never_clamps
    ⟨fun _ => true, 4, 1, some 0, 2, JitterSpec.tup 0 0, false⟩
    (fun i => (CallOutcome.exn ⟨1, i⟩ : CallOutcome Nat)) (fun _ => 0) true rfl
  refine ⟨h.1, ?_⟩
  rw [show (retry_internal (fun i => (CallOutcome.exn ⟨1, i⟩ : CallOutcome Nat))
      ⟨fun _ => true, 4, 1, some 0, 2, JitterSpec.tup 0 0, false⟩
      (fun _ => 0) true).events
    = (retry_internal (fun i => (CallOutcome.exn ⟨1, i⟩ : CallOutcome Nat))
      ⟨fun _ => true, 4, 1, none, 2, JitterSpec.tup 0 0, false⟩
      (fun _ => 0) true).events from congrArg LoopOut.events h.1]
  unfold retry_internal
  rw [show ((4 : Int)).toNat = 3 + 1 from rfl]
  rw [retryLoop_allFail_sleeps (fun i => (CallOutcome.exn ⟨1, i⟩ : CallOutcome Nat))
    ⟨fun _ => true, 4, 1, none, 2, JitterSpec.tup 0 0, false⟩ (fun _ => 0) rfl
    (fun i => ⟨⟨1, i⟩, rfl, rfl⟩) 3 0 _]
  have hd := delaySeq_zero_jitter_nocap
    (⟨fun _ => true, 4, 1, none, 2, JitterSpec.tup 0 0, false⟩ : RetryConfig)
    (fun _ => 0) 0 rfl (fun k => by norm_num [jitterValue]) 1
  simp only [hd]
  simp [List.range_succ]
  norm_num

/-- Claim C10 (confirmed): calling the executor (as `retry_call` does) with
the default `f_args = None` / `f_kwargs = None` never invokes the target
callable; the unpacking `f(*f_args, **f_kwargs)` raises `TypeError` inside
the `try` block, and when `TypeError` is matched (as by the default
universal `Exception`) and attempts are available, it is retried until the
budget is spent — consuming attempts and sleeping between them — and then
propagates, rather than surfacing as an immediate usage error. -/
theorem C10_default_args_never_invoke {α : Type} (cfg : RetryConfig)
    (f : Nat → CallOutcome α) (rand : Nat → ℚ) :
    (retry_internal f cfg rand false).invocations = 0
    ∧ (cfg.exceptions typeErrorKind = true → 0 < cfg.tries →
        (retry_internal f cfg rand false).result
            = RunResult.raised typeErrorExc
        ∧ sleepCount (retry_internal f cfg rand false).events
            = cfg.tries.toNat - 1) := by
  obtain ⟨h1, h2⟩ := retryLoop_noArgs f cfg rand cfg.tries.toNat 0 cfg.delay
  exact ⟨h1, fun hke ht => h2 hke (by omega)⟩

/-- Witness for C10: `tries = 3` with the universal exception match and no
argument containers: zero invocations of the callable, the `TypeError`
propagates after two retried attempts (two sleeps). -/
theorem C10_witness :
    (retry_internal (fun _ => (CallOutcome.ok 42 : CallOutcome Nat))
        ⟨fun _ => true, 3, 1, none, 1, JitterSpec.tup 0 0, false⟩
        (fun _ => 0) false).invocations = 0
    ∧ (retry_internal (fun _ => (CallOutcome.ok 42 : CallOutcome Nat))
        ⟨fun _ => true, 3, 1, none, 1, JitterSpec.tup 0 0, false⟩
        (fun _ => 0) false).result = RunResult.raised typeErrorExc
    ∧ sleepCount (retry_internal (fun _ => (CallOutcome.ok 42 : CallOutcome Nat))
        ⟨fun _ => true, 3, 1, none, 1, JitterSpec.tup 0 0, false⟩
        (fun _ => 0) false).events = 2 := by
  have h := C10_default_args_never_invoke
    ⟨fun _ => true, 3, 1, none, 1, JitterSpec.tup 0 0, false⟩
    (fun _ => (CallOutcome.ok 42 : CallOutcome Nat)) (fun _ => 0)
  have h2 := h.2 rfl (by norm_num)
  exact ⟨h.1, h2.1, h2.2⟩
